import Mathlib

/-!
Verification of the blob image bulk downloader (`blob_image_downloader.py`).

The script drives a browser, scrolls a page, and captures images from two
sources: recorded network responses (`capture_network_images`) and a page-side
buffer of intercepted blob object URLs (`capture_blob_images`).  Both collectors
share a dedup set of MD5 hex digests (`captured_blobs`) and a sequential file
counter (`image_counter`).  The scroll loop (`scroll_and_capture`) runs the two
collectors each iteration, scrolls by a fixed pixel increment, and performs one
final collection pass after the loop exits.

The development below is a shallow embedding: browser, PIL and hashlib are
modelled as parameters (`Libs`), file output as a list of written-file records,
and the Python control flow as explicit state passing.
-/

namespace BlobDownloader

/-- Raw byte payloads (Python `bytes`), as lists of byte values. -/
abbrev Bytes := List Nat

/-- Python `pattern in s` substring helper: `listStarts pat l` is true when
`pat` is an initial segment of `l` (mirrors `str.startswith` on char lists). -/
def listStarts : List Char → List Char → Bool
  | [], _ => true
  | _ :: _, [] => false
  | a :: as, b :: bs => a == b && listStarts as bs

/-- Python `needle in hay` substring containment on char lists. -/
def containsSub (needle : List Char) : List Char → Bool
  | [] => needle.isEmpty
  | c :: rest => listStarts needle (c :: rest) || containsSub needle rest

/-- Python `needle in hay` on strings (`'png' in content_type`). -/
def strContains (hay needle : String) : Bool :=
  containsSub needle.toList hay.toList

/-- Python `s.startswith(pat)` on strings. -/
def strStarts (s pat : String) : Bool :=
  listStarts pat.toList s.toList

/-- Python `s.split(',')`: accumulator-based split at commas, keeping empty
pieces, always producing at least one piece. -/
def splitCommaAux (acc : List Char) : List Char → List (List Char)
  | [] => [acc.reverse]
  | c :: rest =>
    if c = ',' then acc.reverse :: splitCommaAux [] rest
    else splitCommaAux (c :: acc) rest

/-- Python `s.split(',')` on a string. -/
def splitComma (s : String) : List (List Char) :=
  splitCommaAux [] s.toList

/-- Python `image_hash[:8]`: first 8 characters of the hex digest. -/
def take8 (s : String) : String :=
  String.mk (s.toList.take 8)

/-- Extension selection shared by both collectors (lines 164-172 and 212-219
of the source): `ext = 'jpg'`, overridden by the first matching substring test
among `'png'`, `'gif'`, `'webp'` on the declared content type. -/
def pickExt (content_type : String) : String :=
  if strContains content_type "png" then "png"
  else if strContains content_type "gif" then "gif"
  else if strContains content_type "webp" then "webp"
  else "jpg"

/-- Library behaviour the script calls out to: `hashlib.md5(...).hexdigest()`,
PIL `Image.open` followed by `image.save` (modelled as a success predicate on
the byte payload; `false` means the call raises), and `base64.b64decode`
(`none` means it raises). -/
structure Libs where
  md5hex : Bytes → String
  imageOk : Bytes → Bool
  b64decode : List Char → Option Bytes

/-- A file written to the output directory, with the components of its name
(`<source>_<counter>_<hash8>.<ext>`) plus the payload, full digest and declared
content type it was produced from. -/
structure SavedFile where
  source : String
  counter : Nat
  hash8 : String
  ext : String
  contentType : String
  payload : Bytes
  hash : String
deriving DecidableEq

/-- The mutable state of `BlobImageInterceptor`: the dedup set
`self.captured_blobs`, the counter `self.image_counter`, and the files written
so far (in save order). -/
structure St where
  captured_blobs : Finset String
  image_counter : Nat
  files : List SavedFile
deriving DecidableEq

/-- `BlobImageInterceptor.__init__`: empty dedup set, counter 0, no files. -/
def initState : St :=
  { captured_blobs := ∅, image_counter := 0, files := [] }

/-- A recorded network response: declared `Content-Type` header and raw body. -/
structure Response where
  contentType : String
  body : Bytes
deriving DecidableEq

/-- A recorded network request; `response` is `none` when no response was
recorded (`request.response` is falsy). -/
structure Request where
  response : Option Response
deriving DecidableEq

/-- One entry of the page-side `window.interceptedBlobs` buffer. -/
structure BlobEntry where
  url : String
  data : String
  type : String
  size : Nat
  timestamp : String
deriving DecidableEq

/-- Body of the `for request in self.driver.requests` loop of
`capture_network_images` (lines 151-184).  For an image-typed response: hash
the body; if unseen, the hash is added to the dedup set FIRST (line 159), then
the body is decoded, the extension picked, the file written and the counter
bumped.  A decode/save failure (`Libs.imageOk = false`) is swallowed by the
per-request `try/except`, leaving the hash recorded but nothing written. -/
def processRequest (L : Libs) (st : St) (request : Request) : St :=
  match request.response with
  | none => st
  | some response =>
    if strStarts response.contentType "image/" then
      let image_hash := L.md5hex response.body
      if image_hash ∈ st.captured_blobs then st
      else
        let st1 : St := { st with captured_blobs := insert image_hash st.captured_blobs }
        if L.imageOk response.body then
          let file : SavedFile :=
            { source := "network_image"
              counter := st1.image_counter
              hash8 := take8 image_hash
              ext := pickExt response.contentType
              contentType := response.contentType
              payload := response.body
              hash := image_hash }
          { st1 with
              files := st1.files ++ [file]
              image_counter := st1.image_counter + 1 }
        else st1
    else st

/-- `capture_network_images`: fold the per-request body over the recorded
request list. -/
def capture_network_images (L : Libs) (st : St) (requests : List Request) : St :=
  requests.foldl (processRequest L) st

/-- Body of the `for blob in blobs` loop of `capture_blob_images`
(lines 196-228).  Returns the state after the entry together with a flag that
is `true` when the entry raised (comma-split index error, base64 error, or
PIL decode/save error); in the source such an exception aborts the whole pass.
Entries whose `data` is empty or does not start with `data:image` are skipped
(lines 196-197).  As in the network collector, the hash is added to the dedup
set before decoding (line 206). -/
def processBlob (L : Libs) (st : St) (blob : BlobEntry) : St × Bool :=
  if (!blob.data.toList.isEmpty) && strStarts blob.data "data:image" then
    match (splitComma blob.data).get? 1 with
    | none => (st, true)
    | some dataPart =>
      match L.b64decode dataPart with
      | none => (st, true)
      | some image_data =>
        let image_hash := L.md5hex image_data
        if image_hash ∈ st.captured_blobs then (st, false)
        else
          let st1 : St := { st with captured_blobs := insert image_hash st.captured_blobs }
          if L.imageOk image_data then
            let file : SavedFile :=
              { source := "blob_image"
                counter := st1.image_counter
                hash8 := take8 image_hash
                ext := pickExt blob.type
                contentType := blob.type
                payload := image_data
                hash := image_hash }
            ({ st1 with
                files := st1.files ++ [file]
                image_counter := st1.image_counter + 1 }, false)
          else (st1, true)
  else (st, false)

/-- The `for blob in blobs` loop, stopping at the first entry that raises
(the exception propagates to the pass-level handler). -/
def blobLoop (L : Libs) : St → List BlobEntry → St × Bool
  | st, [] => (st, false)
  | st, blob :: rest =>
    let r := processBlob L st blob
    if r.2 then (r.1, true) else blobLoop L r.1 rest

/-- `capture_blob_images` (lines 188-236): run the entry loop on the page-side
buffer; when no exception occurred the buffer is cleared (line 231, inside the
`try`), otherwise the `except` branch is taken and the buffer is left as it
was.  Returns the state and the new contents of `window.interceptedBlobs`. -/
def capture_blob_images (L : Libs) (st : St) (blobs : List BlobEntry) :
    St × List BlobEntry :=
  let r := blobLoop L st blobs
  if r.2 then (r.1, blobs) else (r.1, [])

/-- Module constant `HEIGHT_PER_SCROLL = 1000` (pixels per scroll). -/
def HEIGHT_PER_SCROLL : Nat := 1000

/-- The external world as seen by one run of `scroll_and_capture`:
`requests i` is the driver's recorded request list at collection pass `i`,
`newBlobs i` the blob-buffer entries the page pushed since the previous pass
was read, and `heights i` the `document.body.scrollHeight` measured after the
pause of loop iteration `i`. -/
structure Env where
  requests : Nat → List Request
  newBlobs : Nat → List BlobEntry
  heights : Nat → Nat

/-- One collection pass (lines 267-268 and 291-292): network collector, then
blob collector on the current page-side buffer.  Returns the new state and the
new contents of the page-side buffer. -/
def doPass (L : Libs) (st : St) (buf : List BlobEntry) (reqs : List Request) :
    St × List BlobEntry :=
  let st1 := capture_network_images L st reqs
  capture_blob_images L st1 buf

/-- The `while scroll_count < max_scrolls` loop of `scroll_and_capture`
(lines 263-287), with `fuel = max_scrolls - scroll_count`.  Arguments: fuel,
pass index `i`, current `scroll_height`, state, leftover page-side buffer.
Each iteration does one collection pass, adds `HEIGHT_PER_SCROLL` to the
scroll offset, measures the height, and breaks when the offset reaches it.
Returns the state, the leftover buffer, and the number of passes performed. -/
def runLoop (L : Libs) (env : Env) :
    Nat → Nat → Nat → St → List BlobEntry → St × List BlobEntry × Nat
  | 0, i, _, st, buf => (st, buf, i)
  | fuel + 1, i, scroll_height, st, buf =>
    let p := doPass L st (buf ++ env.newBlobs i) (env.requests i)
    let scroll_height2 := scroll_height + HEIGHT_PER_SCROLL
    if env.heights i ≤ scroll_height2 then (p.1, p.2, i + 1)
    else runLoop L env fuel (i + 1) scroll_height2 p.1 p.2

/-- `scroll_and_capture` (lines 238-297): run the scroll loop from the initial
state, then perform one final collection pass (lines 290-292). -/
def scroll_and_capture (L : Libs) (env : Env) (max_scrolls : Nat) : St :=
  let r := runLoop L env max_scrolls 0 0 initState []
  (doPass L r.1 (r.2.1 ++ env.newBlobs r.2.2) (env.requests r.2.2)).1

/-- Number of collection passes performed inside the scroll loop. -/
def loopPassCount (L : Libs) (env : Env) (max_scrolls : Nat) : Nat :=
  (runLoop L env max_scrolls 0 0 initState []).2.2

/-- Total number of collection passes of a run: the loop passes plus the one
final pass after loop exit. -/
def totalPassCount (L : Libs) (env : Env) (max_scrolls : Nat) : Nat :=
  loopPassCount L env max_scrolls + 1

/-- Decimal digit characters, as produced by Python `str` on `0 ≤ d ≤ 9`. -/
def digitChar (d : Nat) : Char :=
  match d with
  | 0 => '0' | 1 => '1' | 2 => '2' | 3 => '3' | 4 => '4'
  | 5 => '5' | 6 => '6' | 7 => '7' | 8 => '8' | _ => '9'

/-- Python `str(n)` for a natural number: most-significant-first decimal
digits, with `"0"` for zero. -/
def natChars (n : Nat) : List Char :=
  if n = 0 then ['0'] else (Nat.digits 10 n).reverse.map digitChar

/-- The filename of a saved file, as the character list of
`f"{source}_{counter}_{hash8}.{ext}"` (lines 174 and 221). -/
def filenameChars (f : SavedFile) : List Char :=
  f.source.toList ++ '_' :: (natChars f.counter ++ '_' :: (f.hash8.toList ++ '.' :: f.ext.toList))

/-- Wellformedness of a written-file record relative to the dedup set: its
digest is the digest of its payload, the digest is recorded in the dedup set,
its extension and hash prefix come from `pickExt` and `take8`, and its source
tag is one of the two used by the collectors. -/
def GoodFile (L : Libs) (st : St) (f : SavedFile) : Prop :=
  f.hash = L.md5hex f.payload ∧ f.hash ∈ st.captured_blobs ∧
  f.ext = pickExt f.contentType ∧ f.hash8 = take8 f.hash ∧
  (f.source = "network_image" ∨ f.source = "blob_image")

/-- The hash-dedup invariant: every written file is wellformed and no two
written files share a content hash. -/
def HashInv (L : Libs) (st : St) : Prop :=
  (∀ f ∈ st.files, GoodFile L st f) ∧
  st.files.Pairwise fun f g => f.hash ≠ g.hash

/-- The counter invariant: `image_counter` equals the number of files written
so far, and the counter components of the filenames, in save order, are
exactly `0, 1, 2, ...`. -/
def CounterSpec (st : St) : Prop :=
  st.image_counter = st.files.length ∧
  st.files.map SavedFile.counter = List.range st.files.length

/-- A fixed 32-character hex-digest-shaped string, used by the concrete
library models below. -/
def hash32 : String := "0123456789abcdef0123456789abcdef"

/-- A concrete stand-in for `hashlib.md5(...).hexdigest()`: injective on
payloads, so distinct payloads get distinct digests. -/
def md5sim (b : Bytes) : String :=
  String.mk ((b.map fun n => Char.ofNat (97 + n % 26)) ++ hash32.toList)

/-- Concrete libraries where every payload decodes and saves fine. -/
def LOk : Libs :=
  { md5hex := md5sim
    imageOk := fun _ => true
    b64decode := fun cs => some (cs.map Char.toNat) }

/-- Concrete libraries where PIL fails on every payload. -/
def LBad : Libs :=
  { md5hex := md5sim
    imageOk := fun _ => false
    b64decode := fun cs => some (cs.map Char.toNat) }

/-- Concrete libraries where PIL succeeds exactly on 2-byte payloads. -/
def LLen2 : Libs :=
  { md5hex := md5sim
    imageOk := fun b => decide (b.length = 2)
    b64decode := fun cs => some (cs.map Char.toNat) }

/-- A PNG response whose body is the three bytes 1, 2, 3. -/
def respPng : Response :=
  { contentType := "image/png", body := [1, 2, 3] }

/-- A recorded exchange carrying a PNG response body. -/
def reqPng : Request :=
  { response := some respPng }

/-- A concrete environment: one PNG exchange, no blob entries, constant
document height 500 (so the very first scroll already covers it). -/
def envW : Env :=
  { requests := fun _ => [reqPng]
    newBlobs := fun _ => []
    heights := fun _ => 500 }

/-- The file the run `scroll_and_capture LOk envW` writes for `reqPng`. -/
def fileW : SavedFile :=
  { source := "network_image"
    counter := 0
    hash8 := take8 (md5sim [1, 2, 3])
    ext := "png"
    contentType := "image/png"
    payload := [1, 2, 3]
    hash := md5sim [1, 2, 3] }

/-- A blob buffer entry whose Base64 payload is the single byte 65. -/
def eBad : BlobEntry :=
  { url := "u", data := "data:image/png;base64,A", type := "image/png"
    size := 1, timestamp := "t" }

/-- A blob buffer entry whose Base64 payload is the two bytes 65, 66. -/
def eGood : BlobEntry :=
  { url := "u", data := "data:image/png;base64,AB", type := "image/png"
    size := 2, timestamp := "t" }

/-- A blob buffer entry with an empty `data` field. -/
def eSkip : BlobEntry :=
  { url := "u", data := "", type := "", size := 0, timestamp := "t" }

/-- The state after the save branch of either collector: the digest is
recorded and the file record appended, with the counter bumped. -/
def saveState (L : Libs) (st : St) (src ct : String) (payload : Bytes) : St :=
  { captured_blobs := insert (L.md5hex payload) st.captured_blobs
    image_counter := st.image_counter + 1
    files := st.files ++
      [{ source := src
         counter := st.image_counter
         hash8 := take8 (L.md5hex payload)
         ext := pickExt ct
         contentType := ct
         payload := payload
         hash := L.md5hex payload }] }

/-- Any predicate preserved by the two state updates the collectors perform
(recording a digest; saving a file) is preserved by the per-request body of
the network collector. -/
theorem processRequest_pres (L : Libs) (P : St → Prop)
    (hIns : ∀ st x, P st → P { st with captured_blobs := insert x st.captured_blobs })
    (hSave : ∀ (st : St) (src ct : String) (payload : Bytes),
      (src = "network_image" ∨ src = "blob_image") →
      L.md5hex payload ∉ st.captured_blobs → P st → P (saveState L st src ct payload))
    (st : St) (r : Request) (h : P st) : P (processRequest L st r) := by
  obtain ⟨resp⟩ := r
  cases resp with
  | none => exact h
  | some response =>
    unfold processRequest
    dsimp only
    split
    · split
      · exact h
      · next hnot =>
        split
        · exact hSave st "network_image" response.contentType response.body
            (Or.inl rfl) hnot h
        · exact hIns st _ h
    · exact h

/-- Same preservation property for the per-entry body of the blob collector. -/
theorem processBlob_pres (L : Libs) (P : St → Prop)
    (hIns : ∀ st x, P st → P { st with captured_blobs := insert x st.captured_blobs })
    (hSave : ∀ (st : St) (src ct : String) (payload : Bytes),
      (src = "network_image" ∨ src = "blob_image") →
      L.md5hex payload ∉ st.captured_blobs → P st → P (saveState L st src ct payload))
    (st : St) (b : BlobEntry) (h : P st) : P (processBlob L st b).1 := by
  unfold processBlob
  dsimp only
  split
  · split
    · exact h
    · split
      · exact h
      · split
        · exact h
        · next hnot =>
          split
          · exact hSave st "blob_image" b.type _ (Or.inr rfl) hnot h
          · exact hIns st _ h
  · exact h

/-- Preservation through the network collector's request loop. -/
theorem capture_network_pres (L : Libs) (P : St → Prop)
    (hIns : ∀ st x, P st → P { st with captured_blobs := insert x st.captured_blobs })
    (hSave : ∀ (st : St) (src ct : String) (payload : Bytes),
      (src = "network_image" ∨ src = "blob_image") →
      L.md5hex payload ∉ st.captured_blobs → P st → P (saveState L st src ct payload))
    (reqs : List Request) (st : St) (h : P st) :
    P (capture_network_images L st reqs) := by
  induction reqs generalizing st with
  | nil => exact h
  | cons r rest ih =>
    exact ih (processRequest L st r) (processRequest_pres L P hIns hSave st r h)

/-- Preservation through the blob collector's entry loop. -/
theorem blobLoop_pres (L : Libs) (P : St → Prop)
    (hIns : ∀ st x, P st → P { st with captured_blobs := insert x st.captured_blobs })
    (hSave : ∀ (st : St) (src ct : String) (payload : Bytes),
      (src = "network_image" ∨ src = "blob_image") →
      L.md5hex payload ∉ st.captured_blobs → P st → P (saveState L st src ct payload))
    (blobs : List BlobEntry) (st : St) (h : P st) :
    P (blobLoop L st blobs).1 := by
  induction blobs generalizing st with
  | nil => exact h
  | cons b rest ih =>
    unfold blobLoop
    dsimp only
    split
    · exact processBlob_pres L P hIns hSave st b h
    · exact ih _ (processBlob_pres L P hIns hSave st b h)

/-- Preservation through a whole blob collector pass. -/
theorem capture_blob_pres (L : Libs) (P : St → Prop)
    (hIns : ∀ st x, P st → P { st with captured_blobs := insert x st.captured_blobs })
    (hSave : ∀ (st : St) (src ct : String) (payload : Bytes),
      (src = "network_image" ∨ src = "blob_image") →
      L.md5hex payload ∉ st.captured_blobs → P st → P (saveState L st src ct payload))
    (blobs : List BlobEntry) (st : St) (h : P st) :
    P (capture_blob_images L st blobs).1 := by
  unfold capture_blob_images
  dsimp only
  split
  · exact blobLoop_pres L P hIns hSave blobs st h
  · exact blobLoop_pres L P hIns hSave blobs st h

/-- Preservation through one collection pass (network then blob). -/
theorem doPass_pres (L : Libs) (P : St → Prop)
    (hIns : ∀ st x, P st → P { st with captured_blobs := insert x st.captured_blobs })
    (hSave : ∀ (st : St) (src ct : String) (payload : Bytes),
      (src = "network_image" ∨ src = "blob_image") →
      L.md5hex payload ∉ st.captured_blobs → P st → P (saveState L st src ct payload))
    (st : St) (buf : List BlobEntry) (reqs : List Request) (h : P st) :
    P (doPass L st buf reqs).1 := by
  exact capture_blob_pres L P hIns hSave buf _
    (capture_network_pres L P hIns hSave reqs st h)

/-- Preservation through the scroll loop. -/
theorem runLoop_pres (L : Libs) (env : Env) (P : St → Prop)
    (hIns : ∀ st x, P st → P { st with captured_blobs := insert x st.captured_blobs })
    (hSave : ∀ (st : St) (src ct : String) (payload : Bytes),
      (src = "network_image" ∨ src = "blob_image") →
      L.md5hex payload ∉ st.captured_blobs → P st → P (saveState L st src ct payload))
    (fuel i sh : Nat) (st : St) (buf : List BlobEntry) (h : P st) :
    P (runLoop L env fuel i sh st buf).1 := by
  induction fuel generalizing i sh st buf with
  | zero => exact h
  | succ n ih =>
    unfold runLoop
    dsimp only
    split
    · exact doPass_pres L P hIns hSave st _ _ h
    · exact ih _ _ _ _ (doPass_pres L P hIns hSave st _ _ h)

/-- Preservation through an entire run of `scroll_and_capture`. -/
theorem scroll_pres (L : Libs) (env : Env) (P : St → Prop)
    (hIns : ∀ st x, P st → P { st with captured_blobs := insert x st.captured_blobs })
    (hSave : ∀ (st : St) (src ct : String) (payload : Bytes),
      (src = "network_image" ∨ src = "blob_image") →
      L.md5hex payload ∉ st.captured_blobs → P st → P (saveState L st src ct payload))
    (max_scrolls : Nat) (h : P initState) :
    P (scroll_and_capture L env max_scrolls) := by
  unfold scroll_and_capture
  exact doPass_pres L P hIns hSave _ _ _
    (runLoop_pres L env P hIns hSave max_scrolls 0 0 initState [] h)

/-- `CounterSpec` ignores the dedup set, so recording a digest preserves it. -/
theorem counterSpec_ins (st : St) (x : String) (h : CounterSpec st) :
    CounterSpec { st with captured_blobs := insert x st.captured_blobs } := h

/-- Saving a file bumps the counter and appends a file whose counter component
is the old counter value, preserving `CounterSpec`. -/
theorem counterSpec_save (L : Libs) (st : St) (src ct : String) (payload : Bytes)
    (h : CounterSpec st) : CounterSpec (saveState L st src ct payload) := by
  obtain ⟨h1, h2⟩ := h
  constructor
  · simp [saveState, h1]
  · simp [saveState, List.range_succ, h1, h2]

/-- Recording a digest preserves the hash-dedup invariant. -/
theorem hashInv_ins (L : Libs) (st : St) (x : String) (h : HashInv L st) :
    HashInv L { st with captured_blobs := insert x st.captured_blobs } := by
  obtain ⟨hg, hp⟩ := h
  refine ⟨?_, hp⟩
  intro f hf
  obtain ⟨a, b, c, d, e⟩ := hg f hf
  exact ⟨a, Finset.mem_insert_of_mem b, c, d, e⟩

/-- Saving a file whose digest is unseen preserves the hash-dedup invariant:
the new file's digest differs from every digest already recorded, hence from
every already-written file's digest. -/
theorem hashInv_save (L : Libs) (st : St) (src ct : String) (payload : Bytes)
    (hsrc : src = "network_image" ∨ src = "blob_image")
    (hnot : L.md5hex payload ∉ st.captured_blobs)
    (h : HashInv L st) : HashInv L (saveState L st src ct payload) := by
  obtain ⟨hg, hp⟩ := h
  constructor
  · intro f hf
    simp only [saveState, List.mem_append, List.mem_singleton] at hf
    rcases hf with hf | hf
    · obtain ⟨a, b, c, d, e⟩ := hg f hf
      exact ⟨a, Finset.mem_insert_of_mem b, c, d, e⟩
    · subst hf
      exact ⟨rfl, Finset.mem_insert_self _ _, rfl, rfl, hsrc⟩
  · simp only [saveState]
    rw [List.pairwise_append]
    refine ⟨hp, by simp, ?_⟩
    intro a ha b hb
    simp only [List.mem_singleton] at hb
    subst hb
    intro hEq
    have hmem := (hg a ha).2.1
    rw [hEq] at hmem
    exact hnot hmem

/-- The initial state satisfies the counter invariant. -/
theorem counterSpec_init : CounterSpec initState := ⟨rfl, rfl⟩

/-- The initial state satisfies the hash-dedup invariant. -/
theorem hashInv_init (L : Libs) : HashInv L initState :=
  ⟨fun f hf => absurd hf (List.not_mem_nil f), List.Pairwise.nil⟩

/-- After a whole run, the counter invariant holds. -/
theorem scroll_counterSpec (L : Libs) (env : Env) (ms : Nat) :
    CounterSpec (scroll_and_capture L env ms) :=
  scroll_pres L env CounterSpec counterSpec_ins
    (fun st src ct payload _ _ h => counterSpec_save L st src ct payload h)
    ms counterSpec_init

/-- After a whole run, the hash-dedup invariant holds. -/
theorem scroll_hashInv (L : Libs) (env : Env) (ms : Nat) :
    HashInv L (scroll_and_capture L env ms) :=
  scroll_pres L env (HashInv L) (hashInv_ins L)
    (fun st src ct payload hsrc hnot h => hashInv_save L st src ct payload hsrc hnot h)
    ms (hashInv_init L)

/-- After one collection pass, the counter invariant is preserved. -/
theorem doPass_counterSpec (L : Libs) (st : St) (buf : List BlobEntry)
    (reqs : List Request) (h : CounterSpec st) :
    CounterSpec (doPass L st buf reqs).1 :=
  doPass_pres L CounterSpec counterSpec_ins
    (fun st2 src ct payload _ _ h2 => counterSpec_save L st2 src ct payload h2)
    st buf reqs h

/-- In a list of files whose digests are the digests of their payloads and are
pairwise distinct, at most one file carries any given payload. -/
theorem filter_payload_le_one (L : Libs) (l : List SavedFile)
    (hmd : ∀ f ∈ l, f.hash = L.md5hex f.payload)
    (hp : l.Pairwise fun f g => f.hash ≠ g.hash) (p : Bytes) :
    (l.filter fun f => decide (f.payload = p)).length ≤ 1 := by
  induction l with
  | nil => simp
  | cons f t ih =>
    rw [List.pairwise_cons] at hp
    obtain ⟨hf, ht⟩ := hp
    by_cases hfp : f.payload = p
    · have hft : t.filter (fun g => decide (g.payload = p)) = [] := by
        rw [List.filter_eq_nil_iff]
        intro g hg hgp
        rw [decide_eq_true_eq] at hgp
        have h1 := hmd g (List.mem_cons_of_mem f hg)
        have h2 := hmd f (List.mem_cons_self f t)
        apply hf g hg
        rw [h2, hfp, ← hgp, ← h1]
      simp [List.filter_cons, hfp, hft]
    · rw [List.filter_cons, if_neg (by simpa using hfp)]
      exact ih (fun g hg => hmd g (List.mem_cons_of_mem f hg)) ht

/-- C1: for every run, no two files written share a content hash, and for any
byte payload at most one file is written carrying that payload — the dedup
set of digests is shared by the network and blob collectors across all
collection passes. -/
theorem claim_C1 (L : Libs) (env : Env) (ms : Nat) :
    (scroll_and_capture L env ms).files.Pairwise (fun f g => f.hash ≠ g.hash) ∧
    ∀ p : Bytes,
      ((scroll_and_capture L env ms).files.filter fun f =>
        decide (f.payload = p)).length ≤ 1 := by
  obtain ⟨hg, hp⟩ := scroll_hashInv L env ms
  exact ⟨hp, fun p => filter_payload_le_one L _ (fun f hf => (hg f hf).1) hp p⟩

/-- C9: the sequential image counter, shared by both collectors, equals after
a run the number of files written, and the counter components of the written
files form the sequence 0, 1, 2, ... in save order; moreover any single
collection pass preserves this relation between counter and files. -/
theorem claim_C9 (L : Libs) (env : Env) (ms : Nat) :
    CounterSpec (scroll_and_capture L env ms) ∧
    ∀ (st : St) (buf : List BlobEntry) (reqs : List Request),
      CounterSpec st → CounterSpec (doPass L st buf reqs).1 :=
  ⟨scroll_counterSpec L env ms,
   fun st buf reqs h => doPass_counterSpec L st buf reqs h⟩

/-- Witness for C9: the counter relation after a concrete one-image run, and
pass preservation instantiated at the initial state. -/
theorem claim_C9_w :
    CounterSpec (scroll_and_capture LOk envW 1) ∧
    CounterSpec (doPass LOk initState [] []).1 :=
  ⟨(claim_C9 LOk envW 1).1, (claim_C9 LOk envW 1).2 initState [] [] ⟨rfl, rfl⟩⟩

/-- Case analysis of the extension choice: the first matching substring among
"png", "gif", "webp" wins, with "jpg" as the default, so the result is always
one of the four. -/
theorem pickExt_cases (ct : String) :
    (strContains ct "png" = true → pickExt ct = "png") ∧
    (strContains ct "png" = false → strContains ct "gif" = true →
      pickExt ct = "gif") ∧
    (strContains ct "png" = false → strContains ct "gif" = false →
      strContains ct "webp" = true → pickExt ct = "webp") ∧
    (strContains ct "png" = false → strContains ct "gif" = false →
      strContains ct "webp" = false → pickExt ct = "jpg") ∧
    (pickExt ct = "jpg" ∨ pickExt ct = "png" ∨ pickExt ct = "gif" ∨
      pickExt ct = "webp") := by
  unfold pickExt
  cases hp : strContains ct "png" <;> cases hg : strContains ct "gif" <;>
    cases hw : strContains ct "webp" <;> simp

/-- C4: every file either collector saves has its extension selected by
substring match on the declared content type — "png" wins, else "gif", else
"webp", else the "jpg" default — so the extension is always one of the four. -/
theorem claim_C4 (L : Libs) (env : Env) (ms : Nat) (f : SavedFile)
    (hf : f ∈ (scroll_and_capture L env ms).files) :
    f.ext = pickExt f.contentType ∧
    (strContains f.contentType "png" = true → f.ext = "png") ∧
    (strContains f.contentType "png" = false →
      strContains f.contentType "gif" = true → f.ext = "gif") ∧
    (strContains f.contentType "png" = false →
      strContains f.contentType "gif" = false →
      strContains f.contentType "webp" = true → f.ext = "webp") ∧
    (strContains f.contentType "png" = false →
      strContains f.contentType "gif" = false →
      strContains f.contentType "webp" = false → f.ext = "jpg") ∧
    (f.ext = "jpg" ∨ f.ext = "png" ∨ f.ext = "gif" ∨ f.ext = "webp") := by
  have hext := ((scroll_hashInv L env ms).1 f hf).2.2.1
  have hc := pickExt_cases f.contentType
  rw [hext]
  exact ⟨rfl, hc.1, hc.2.1, hc.2.2.1, hc.2.2.2.1, hc.2.2.2.2⟩

/-- Witness for C4: the PNG file written by a concrete run gets extension
"png" via the substring rule. -/
theorem claim_C4_w :
    fileW ∈ (scroll_and_capture LOk envW 1).files ∧
    (fileW.ext = pickExt fileW.contentType ∧
    (strContains fileW.contentType "png" = true → fileW.ext = "png") ∧
    (strContains fileW.contentType "png" = false →
      strContains fileW.contentType "gif" = true → fileW.ext = "gif") ∧
    (strContains fileW.contentType "png" = false →
      strContains fileW.contentType "gif" = false →
      strContains fileW.contentType "webp" = true → fileW.ext = "webp") ∧
    (strContains fileW.contentType "png" = false →
      strContains fileW.contentType "gif" = false →
      strContains fileW.contentType "webp" = false → fileW.ext = "jpg") ∧
    (fileW.ext = "jpg" ∨ fileW.ext = "png" ∨ fileW.ext = "gif" ∨
      fileW.ext = "webp")) :=
  ⟨by decide, claim_C4 LOk envW 1 fileW (by decide)⟩

/-- `digitChar` is injective on decimal digits. -/
theorem digitChar_inj : ∀ d < 10, ∀ e < 10, digitChar d = digitChar e → d = e := by
  decide

/-- `digitChar` never produces an underscore. -/
theorem digitChar_ne_underscore (d : Nat) : digitChar d ≠ '_' := by
  unfold digitChar
  split <;> decide

/-- The decimal rendering of a natural number contains no underscore. -/
theorem natChars_no_underscore (n : Nat) : '_' ∉ natChars n := by
  unfold natChars
  split
  · decide
  · intro hmem
    rw [List.mem_map] at hmem
    obtain ⟨d, _, hd⟩ := hmem
    exact digitChar_ne_underscore d hd

/-- Mapping `digitChar` over lists of decimal digits is injective. -/
theorem map_digitChar_inj :
    ∀ (l1 l2 : List Nat), (∀ x ∈ l1, x < 10) → (∀ x ∈ l2, x < 10) →
      l1.map digitChar = l2.map digitChar → l1 = l2 := by
  intro l1
  induction l1 with
  | nil =>
    intro l2 _ _ he
    cases l2 with
    | nil => rfl
    | cons c t => simp at he
  | cons c t ih =>
    intro l2 h1 h2 he
    cases l2 with
    | nil => simp at he
    | cons c2 t2 =>
      simp only [List.map_cons, List.cons.injEq] at he
      have hc := digitChar_inj c (h1 c (List.mem_cons_self c t)) c2
        (h2 c2 (List.mem_cons_self c2 t2)) he.1
      have ht := ih t2 (fun x hx => h1 x (List.mem_cons_of_mem c hx))
        (fun x hx => h2 x (List.mem_cons_of_mem c2 hx)) he.2
      rw [hc, ht]

/-- The decimal rendering of a natural number is injective (Python `str`). -/
theorem natChars_inj (m n : Nat) (he : natChars m = natChars n) : m = n := by
  unfold natChars at he
  by_cases hm : m = 0 <;> by_cases hn : n = 0
  · rw [hm, hn]
  · rw [if_pos hm, if_neg hn] at he
    exfalso
    obtain ⟨l, hl⟩ : ∃ l, (Nat.digits 10 n).reverse = l := ⟨_, rfl⟩
    rw [hl] at he
    cases l with
    | nil => simp at he
    | cons d t =>
      cases t with
      | nil =>
        simp only [List.map_cons, List.map_nil, List.cons.injEq] at he
        have hd10 : d < 10 := by
          apply Nat.digits_lt_base (by omega)
          rw [← List.mem_reverse, hl]
          exact List.mem_cons_self d []
        have hd0 : d = 0 := digitChar_inj d hd10 0 (by omega) he.1.symm
        have hdig : Nat.digits 10 n = [0] := by
          have := congrArg List.reverse hl
          rw [List.reverse_reverse] at this
          rw [this, hd0]
          rfl
        have := Nat.ofDigits_digits 10 n
        rw [hdig] at this
        simp [Nat.ofDigits_cons, Nat.ofDigits_nil] at this
        exact hn this.symm
      | cons d2 t2 => simp at he
  · rw [if_neg hm, if_pos hn] at he
    exfalso
    obtain ⟨l, hl⟩ : ∃ l, (Nat.digits 10 m).reverse = l := ⟨_, rfl⟩
    rw [hl] at he
    cases l with
    | nil => simp at he
    | cons d t =>
      cases t with
      | nil =>
        simp only [List.map_cons, List.map_nil, List.cons.injEq] at he
        have hd10 : d < 10 := by
          apply Nat.digits_lt_base (by omega)
          rw [← List.mem_reverse, hl]
          exact List.mem_cons_self d []
        have hd0 : d = 0 := digitChar_inj d hd10 0 (by omega) he.1
        have hdig : Nat.digits 10 m = [0] := by
          have := congrArg List.reverse hl
          rw [List.reverse_reverse] at this
          rw [this, hd0]
          rfl
        have := Nat.ofDigits_digits 10 m
        rw [hdig] at this
        simp [Nat.ofDigits_cons, Nat.ofDigits_nil] at this
        exact hm this.symm
      | cons d2 t2 => simp at he
  · rw [if_neg hm, if_neg hn] at he
    have hdm : ∀ x ∈ (Nat.digits 10 m).reverse, x < 10 := by
      intro x hx
      rw [List.mem_reverse] at hx
      exact Nat.digits_lt_base (by omega) hx
    have hdn : ∀ x ∈ (Nat.digits 10 n).reverse, x < 10 := by
      intro x hx
      rw [List.mem_reverse] at hx
      exact Nat.digits_lt_base (by omega) hx
    have := map_digitChar_inj _ _ hdm hdn he
    rw [List.reverse_inj] at this
    exact Nat.digits_inj_iff.mp this

/-- Splitting a character list at the first underscore is unambiguous when
the left parts contain no underscore. -/
theorem underscore_split (l1 : List Char) :
    ∀ (l2 r1 r2 : List Char), '_' ∉ l1 → '_' ∉ l2 →
      l1 ++ '_' :: r1 = l2 ++ '_' :: r2 → l1 = l2 ∧ r1 = r2 := by
  induction l1 with
  | nil =>
    intro l2 r1 r2 _ h2 he
    cases l2 with
    | nil => simpa using he
    | cons c t =>
      simp only [List.nil_append, List.cons_append, List.cons.injEq] at he
      exact absurd (List.mem_cons_self c t) (by rw [he.1] at h2; exact h2)
  | cons c t ih =>
    intro l2 r1 r2 h1 h2 he
    cases l2 with
    | nil =>
      simp only [List.cons_append, List.nil_append, List.cons.injEq] at he
      exact absurd (List.mem_cons_self c t) (by rw [← he.1] at h1; exact h1)
    | cons c2 t2 =>
      simp only [List.cons_append, List.cons.injEq] at he
      have := ih t2 r1 r2 (fun hx => h1 (List.mem_cons_of_mem c hx))
        (fun hx => h2 (List.mem_cons_of_mem c2 hx)) he.2
      exact ⟨by rw [he.1, this.1], this.2⟩

/-- Saved files with the collectors' source tags and distinct counters get
distinct filenames: the decimal counter component sits between underscores
and contains none, so it is recoverable from the filename. -/
theorem filename_ne (f g : SavedFile)
    (hf : f.source = "network_image" ∨ f.source = "blob_image")
    (hg : g.source = "network_image" ∨ g.source = "blob_image")
    (hc : f.counter ≠ g.counter) : filenameChars f ≠ filenameChars g := by
  intro he
  unfold filenameChars at he
  rcases hf with hf | hf <;> rcases hg with hg | hg <;> rw [hf, hg] at he
  · have he2 := List.append_cancel_left he
    have he3 : natChars f.counter ++ '_' ::
        (f.hash8.toList ++ '.' :: f.ext.toList) = natChars g.counter ++ '_' ::
        (g.hash8.toList ++ '.' :: g.ext.toList) := by
      simpa using he2
    exact hc (natChars_inj _ _ (underscore_split _ _ _ _
      (natChars_no_underscore f.counter) (natChars_no_underscore g.counter) he3).1)
  · have h0 := congrArg (fun l : List Char => l.take 2) he
    have h1 : (['n', 'e'] : List Char) = ['b', 'l'] := h0
    simp at h1
  · have h0 := congrArg (fun l : List Char => l.take 2) he
    have h1 : (['b', 'l'] : List Char) = ['n', 'e'] := h0
    simp at h1
  · have he2 := List.append_cancel_left he
    have he3 : natChars f.counter ++ '_' ::
        (f.hash8.toList ++ '.' :: f.ext.toList) = natChars g.counter ++ '_' ::
        (g.hash8.toList ++ '.' :: g.ext.toList) := by
      simpa using he2
    exact hc (natChars_inj _ _ (underscore_split _ _ _ _
      (natChars_no_underscore f.counter) (natChars_no_underscore g.counter) he3).1)

/-- C5: all filenames written during one run are pairwise distinct, because
the counter components already are — even when hash prefixes collide. -/
theorem claim_C5 (L : Libs) (env : Env) (ms : Nat) :
    (scroll_and_capture L env ms).files.Pairwise fun f g =>
      f.counter ≠ g.counter ∧ filenameChars f ≠ filenameChars g := by
  have hcs := scroll_counterSpec L env ms
  have hsrc := (scroll_hashInv L env ms).1
  have hnd : ((scroll_and_capture L env ms).files.map SavedFile.counter).Nodup := by
    rw [hcs.2]
    exact List.nodup_range _
  rw [List.Nodup, List.pairwise_map] at hnd
  refine List.Pairwise.imp_of_mem ?_ hnd
  intro f g hfm hgm hne
  exact ⟨hne, filename_ne f g ((hsrc f hfm).2.2.2.2) ((hsrc g hgm).2.2.2.2) hne⟩

/-- The scroll loop performs at most `fuel` further passes beyond index `i`. -/
theorem runLoop_count_le (L : Libs) (env : Env) :
    ∀ (fuel i sh : Nat) (st : St) (buf : List BlobEntry),
      (runLoop L env fuel i sh st buf).2.2 ≤ i + fuel := by
  intro fuel
  induction fuel with
  | zero =>
    intro i sh st buf
    simp [runLoop]
  | succ n ih =>
    intro i sh st buf
    unfold runLoop
    dsimp only
    split
    · show i + 1 ≤ i + (n + 1)
      omega
    · exact le_trans (ih (i + 1) _ _ _) (by omega)

/-- C6: the scroll loop terminates after at most `max_scrolls + 1` collection
passes — `max_scrolls` in-loop passes plus the single final pass — whatever
the measured document heights do. -/
theorem claim_C6 (L : Libs) (env : Env) (max_scrolls : Nat) :
    totalPassCount L env max_scrolls ≤ max_scrolls + 1 ∧
    totalPassCount L env max_scrolls = loopPassCount L env max_scrolls + 1 := by
  constructor
  · have h := runLoop_count_le L env max_scrolls 0 0 initState []
    unfold totalPassCount loopPassCount
    omega
  · rfl

/-- If the first `k` iterations starting at index `i` do not reach the
measured height but iteration `k` does, the loop stops there, after exactly
`i + k + 1` passes. -/
theorem runLoop_stops (L : Libs) (env : Env) :
    ∀ (k fuel i sh : Nat) (st : St) (buf : List BlobEntry),
      k < fuel →
      (∀ j, j < k → ¬ env.heights (i + j) ≤ sh + (j + 1) * HEIGHT_PER_SCROLL) →
      env.heights (i + k) ≤ sh + (k + 1) * HEIGHT_PER_SCROLL →
      (runLoop L env fuel i sh st buf).2.2 = i + k + 1 := by
  intro k
  induction k with
  | zero =>
    intro fuel i sh st buf hk hmin hbr
    obtain ⟨f, rfl⟩ : ∃ f, fuel = f + 1 := ⟨fuel - 1, by omega⟩
    unfold runLoop
    dsimp only
    rw [if_pos (by simpa using hbr)]
  | succ k ih =>
    intro fuel i sh st buf hk hmin hbr
    obtain ⟨f, rfl⟩ : ∃ f, fuel = f + 1 := ⟨fuel - 1, by omega⟩
    unfold runLoop
    dsimp only
    rw [if_neg (by simpa using hmin 0 (by omega))]
    have hrec := ih f (i + 1) (sh + HEIGHT_PER_SCROLL)
      (doPass L st (buf ++ env.newBlobs i) (env.requests i)).1
      (doPass L st (buf ++ env.newBlobs i) (env.requests i)).2 (by omega)
      (by
        intro j hj
        have h2 := hmin (j + 1) (by omega)
        have e1 : i + (j + 1) = i + 1 + j := by omega
        have e2 : sh + (j + 1 + 1) * HEIGHT_PER_SCROLL =
            sh + HEIGHT_PER_SCROLL + (j + 1) * HEIGHT_PER_SCROLL := by ring
        rw [e1, e2] at h2
        exact h2)
      (by
        have e1 : i + (k + 1) = i + 1 + k := by omega
        have e2 : sh + (k + 1 + 1) * HEIGHT_PER_SCROLL =
            sh + HEIGHT_PER_SCROLL + (k + 1) * HEIGHT_PER_SCROLL := by ring
        rw [e1, e2] at hbr
        exact hbr)
    rw [hrec]
    omega

/-- C7: the scroll loop stops early, at the first iteration whose cumulative
scroll offset reaches the height measured after that iteration's pause; only
the single final collection pass follows. -/
theorem claim_C7 (L : Libs) (env : Env) (max_scrolls i : Nat)
    (hi : i < max_scrolls)
    (hmin : ∀ j, j < i → (j + 1) * HEIGHT_PER_SCROLL < env.heights j)
    (hbr : env.heights i ≤ (i + 1) * HEIGHT_PER_SCROLL) :
    loopPassCount L env max_scrolls = i + 1 ∧
    totalPassCount L env max_scrolls = i + 2 ∧ i + 1 ≤ max_scrolls := by
  have h0 := runLoop_stops L env i max_scrolls 0 0 initState [] hi
    (by
      intro j hj
      have h2 := hmin j hj
      simp only [Nat.zero_add]
      omega)
    (by simpa using hbr)
  refine ⟨?_, ?_, by omega⟩
  · unfold loopPassCount
    rw [h0]
    omega
  · unfold totalPassCount loopPassCount
    rw [h0]
    omega

/-- Witness for C7: with constant measured height 500 the very first scroll
(offset 1000) covers it, so a 5-cap run stops after one loop pass and one
final pass. -/
theorem claim_C7_w :
    loopPassCount LOk envW 5 = 0 + 1 ∧
    totalPassCount LOk envW 5 = 0 + 2 ∧ 0 + 1 ≤ 5 :=
  claim_C7 LOk envW 5 0 (by decide)
    (fun j hj => absurd hj (Nat.not_lt_zero j)) (by decide)

/-- Processing an image response whose digest is unseen but whose body PIL
cannot decode records the digest and changes nothing else: the dedup-set add
on line 159 precedes `Image.open` on line 162. -/
theorem processRequest_undecodable (L : Libs) (st : St) (resp : Response)
    (himg : strStarts resp.contentType "image/" = true)
    (hnew : L.md5hex resp.body ∉ st.captured_blobs)
    (hbad : L.imageOk resp.body = false) :
    processRequest L st { response := some resp } =
      { st with captured_blobs := insert (L.md5hex resp.body) st.captured_blobs } := by
  unfold processRequest
  dsimp only
  rw [if_pos himg, if_neg hnew, if_neg (by simp [hbad])]

/-- Processing a response whose digest is already recorded changes nothing. -/
theorem processRequest_dup (L : Libs) (st : St) (resp : Response)
    (hmem : L.md5hex resp.body ∈ st.captured_blobs) :
    processRequest L st { response := some resp } = st := by
  unfold processRequest
  dsimp only
  by_cases himg : strStarts resp.contentType "image/" = true
  · rw [if_pos himg, if_pos hmem]
  · rw [if_neg himg]

/-- C3 (amended): for an unseen image body the network collector records the
content hash immediately after the unseen check and BEFORE decoding, so when
decoding raises, the digest stays recorded and any later byte-identical copy
is a no-op — it is never written. -/
theorem claim_C3 (L : Libs) (st : St) (resp : Response)
    (himg : strStarts resp.contentType "image/" = true)
    (hnew : L.md5hex resp.body ∉ st.captured_blobs)
    (hbad : L.imageOk resp.body = false) :
    processRequest L st { response := some resp } =
      { st with captured_blobs := insert (L.md5hex resp.body) st.captured_blobs } ∧
    ∀ resp2 : Response, resp2.body = resp.body →
      processRequest L (processRequest L st { response := some resp })
          { response := some resp2 } =
        processRequest L st { response := some resp } := by
  have h1 := processRequest_undecodable L st resp himg hnew hbad
  refine ⟨h1, fun resp2 hb => ?_⟩
  rw [h1]
  exact processRequest_dup L _ resp2
    (by rw [hb]; exact Finset.mem_insert_self _ _)

/-- Counterexample for C3 as stated: an undecodable PNG body leaves no file
but DOES change the dedup set — the digest is recorded before decoding, not
after writing. -/
theorem claim_C3_cex :
    (capture_network_images LBad initState [reqPng]).files = [] ∧
    md5sim [1, 2, 3] ∈
      (capture_network_images LBad initState [reqPng]).captured_blobs ∧
    (capture_network_images LBad initState [reqPng]).captured_blobs ≠
      initState.captured_blobs :=
  ⟨by decide, by decide, by decide⟩

/-- Witness for C3 (amended): a concrete undecodable PNG body. -/
theorem claim_C3_w :
    processRequest LBad initState { response := some respPng } =
      { initState with captured_blobs := insert (LBad.md5hex respPng.body) initState.captured_blobs } ∧
    ∀ resp2 : Response, resp2.body = respPng.body →
      processRequest LBad (processRequest LBad initState { response := some respPng })
          { response := some resp2 } =
        processRequest LBad initState { response := some respPng } :=
  claim_C3 LBad initState respPng (by decide) (by decide) (by decide)

/-- C2 (amended): an undecodable image payload never aborts the scroll loop,
and in the network collector the per-request `try/except` keeps the rest of
the pass running (processing continues on the remaining requests from a state
with no new file); but in the blob collector an undecodable payload raises out
of the entry loop, so the remainder of THAT pass is skipped, no file is
written by it, and the page-side buffer is left unchanged. -/
theorem claim_C2 (L : Libs) (st : St) (resp : Response) (rest : List Request)
    (himg : strStarts resp.contentType "image/" = true)
    (hnew : L.md5hex resp.body ∉ st.captured_blobs)
    (hbad : L.imageOk resp.body = false)
    (blob : BlobEntry) (brest : List BlobEntry)
    (dataPart : List Char) (bbytes : Bytes)
    (hfilter : (!blob.data.toList.isEmpty && strStarts blob.data "data:image") = true)
    (hsplit : (splitComma blob.data).get? 1 = some dataPart)
    (hb64 : L.b64decode dataPart = some bbytes)
    (hbnew : L.md5hex bbytes ∉ st.captured_blobs)
    (hbbad : L.imageOk bbytes = false) :
    (capture_network_images L st ({ response := some resp } :: rest) =
      capture_network_images L
        { st with captured_blobs := insert (L.md5hex resp.body) st.captured_blobs }
        rest) ∧
    (capture_blob_images L st (blob :: brest)).1.files = st.files ∧
    (capture_blob_images L st (blob :: brest)).2 = blob :: brest := by
  have hpb : processBlob L st blob =
      ({ st with captured_blobs := insert (L.md5hex bbytes) st.captured_blobs },
        true) := by
    unfold processBlob
    dsimp only
    rw [if_pos hfilter, hsplit]
    dsimp only
    rw [hb64]
    dsimp only
    rw [if_neg hbnew, if_neg (by simp [hbbad])]
  have hloop : blobLoop L st (blob :: brest) =
      ({ st with captured_blobs := insert (L.md5hex bbytes) st.captured_blobs },
        true) := by
    unfold blobLoop
    dsimp only
    rw [hpb]
    rfl
  refine ⟨?_, ?_, ?_⟩
  · show capture_network_images L (processRequest L st { response := some resp })
      rest = _
    rw [processRequest_undecodable L st resp himg hnew hbad]
  · unfold capture_blob_images
    rw [hloop]
    rfl
  · unfold capture_blob_images
    rw [hloop]
    rfl

/-- Counterexample for C2 as stated: a blob pass presenting an undecodable
entry followed by a perfectly savable one writes nothing at all — the later
payload of the same pass is NOT processed — although the savable entry alone
would produce one file. -/
theorem claim_C2_cex :
    (capture_blob_images LLen2 initState [eBad, eGood]).1.files = [] ∧
    (capture_blob_images LLen2 initState [eGood]).1.files.length = 1 :=
  ⟨by decide, by decide⟩

/-- Witness for C2 (amended): concrete undecodable payloads in both
collectors. -/
theorem claim_C2_w :
    (capture_network_images LLen2 initState ({ response := some respPng } :: []) =
      capture_network_images LLen2
        { initState with captured_blobs := insert (LLen2.md5hex respPng.body) initState.captured_blobs }
        []) ∧
    (capture_blob_images LLen2 initState (eBad :: [eGood])).1.files =
      initState.files ∧
    (capture_blob_images LLen2 initState (eBad :: [eGood])).2 = eBad :: [eGood] :=
  claim_C2 LLen2 initState respPng [] (by decide) (by decide) (by decide)
    eBad [eGood] (['A']) ([65]) (by decide) (by decide) (by decide) (by decide)
    (by decide)

/-- The blob entry loop raises no exception when no entry of the buffer can
raise from any state. -/
theorem blobLoop_no_error (L : Libs) :
    ∀ (bl : List BlobEntry) (st0 : St),
      (∀ b ∈ bl, ∀ st2 : St, (processBlob L st2 b).2 = false) →
      (blobLoop L st0 bl).2 = false := by
  intro bl
  induction bl with
  | nil => intro st0 _; rfl
  | cons b rest ih =>
    intro st0 hb
    unfold blobLoop
    dsimp only
    rw [if_neg (by simp [hb b (List.mem_cons_self b rest) st0])]
    exact ih _ (fun b2 h2 st2 => hb b2 (List.mem_cons_of_mem b h2) st2)

/-- C8 (amended): the blob collector clears the page-side buffer provided the
pass processes all its entries without an exception; the clear sits inside the
`try`, so it is skipped when an entry raises. -/
theorem claim_C8 (L : Libs) (st : St) (blobs : List BlobEntry)
    (h : ∀ b ∈ blobs, ∀ st2 : St, (processBlob L st2 b).2 = false) :
    (capture_blob_images L st blobs).2 = [] := by
  unfold capture_blob_images
  dsimp only
  rw [if_neg (by simp [blobLoop_no_error L blobs st h])]

/-- Counterexample for C8 as stated: an invocation whose single entry is
undecodable leaves the buffer uncleared, so the entry is presented to the
collector again on the next pass. -/
theorem claim_C8_cex :
    (capture_blob_images LLen2 initState [eBad]).2 = [eBad] ∧
    (capture_blob_images LLen2 initState [eBad]).2 ≠ [] :=
  ⟨by decide, by decide⟩

/-- Witness for C8 (amended): a buffer whose single entry is filtered out is
cleared. -/
theorem claim_C8_w : (capture_blob_images LOk initState [eSkip]).2 = [] :=
  claim_C8 LOk initState [eSkip] (by
    intro b hb st2
    rw [List.mem_singleton] at hb
    rw [hb]
    rfl)

/-- C10: a blob buffer entry whose `data` is empty or does not start with
`data:image` is ignored entirely — no file, no digest recorded, counter
untouched, and no exception. -/
theorem claim_C10 (L : Libs) (st : St) (blob : BlobEntry)
    (h : blob.data = "" ∨ strStarts blob.data "data:image" = false) :
    (processBlob L st blob).1.files = st.files ∧
    (processBlob L st blob).1.captured_blobs = st.captured_blobs ∧
    (processBlob L st blob).1.image_counter = st.image_counter ∧
    (processBlob L st blob).2 = false := by
  have hcond : (!blob.data.toList.isEmpty && strStarts blob.data "data:image") =
      false := by
    rcases h with h | h
    · rw [h]
      rfl
    · rw [h, Bool.and_false]
  unfold processBlob
  dsimp only
  rw [if_neg (by rw [hcond]; simp)]
  exact ⟨rfl, rfl, rfl, rfl⟩

/-- Witness for C10: an entry with empty `data` is ignored. -/
theorem claim_C10_w :
    (eSkip.data = "" ∨ strStarts eSkip.data "data:image" = false) ∧
    ((processBlob LOk initState eSkip).1.files = initState.files ∧
     (processBlob LOk initState eSkip).1.captured_blobs =
       initState.captured_blobs ∧
     (processBlob LOk initState eSkip).1.image_counter =
       initState.image_counter ∧
     (processBlob LOk initState eSkip).2 = false) :=
  ⟨Or.inl rfl, claim_C10 LOk initState eSkip (Or.inl rfl)⟩

end BlobDownloader
